import Mathlib

/-!
Shallow embedding of `src/mongodb_retention.py`, a MongoDB data-retention
script.  The script's class `MongoDB` holds a single pymongo connection
(`self.__conn`), discovers the replica-set primary among the hosts given on
the command line, deletes documents older than a month-based cutoff from
every collection of the target database (`cut_old_data`), and rebuilds
indexes on every secondary (`rebuild_indexes`).

The embedding models:
  * documents with an optional numeric `timestamp` field (milliseconds);
  * the per-collection sweep (count / count matching / remove / count);
  * the primary-discovery loop, including the behaviour when pymongo's
    `MongoClient` constructor raises and `connect` leaves the connection
    unset;
  * the date arithmetic `today - monthdelta(retention)` followed by
    `calendar.timegm(...) * 1000` (the `monthdelta` and `calendar.timegm`
    library semantics, reproduced for proleptic Gregorian dates);
  * the connection state machine of `connect` / `close` with an event
    trace recording opens and closes;
  * the `__main__` gating on the truthiness of `args.retention`;
  * the connection-URI construction of `connect`, including Python's
    `'%s' % None` rendering as the literal string `"None"`.
-/

/-- A MongoDB document, as far as the retention filter is concerned:
an optional numeric `timestamp` field (epoch milliseconds) plus an opaque
identity for the rest of the document. -/
structure Doc where
  timestamp : Option Int
  payload : Nat
  deriving DecidableEq, Repr

/-- The filter `{"timestamp": {"$lt": cut_off_timestamp}}`: a document
matches iff it has a `timestamp` field and its value is strictly below the
cutoff.  A document without the field never matches `$lt`. -/
def matchesCutoff (cutoff : Int) (d : Doc) : Bool :=
  match d.timestamp with
  | some t => decide (t < cutoff)
  | none => false

/-- The per-collection counts reported by `cut_old_data` lines 119-131:
`collection.count()` before, `collection.find(filter).count()`,
`collection.remove(filter)`, `collection.count()` after. -/
structure SweepResult where
  total : Nat
  toRemove : Nat
  left : Nat
  docsAfter : List Doc
  deriving Repr

/-- One iteration of the collection loop in `cut_old_data` (lines 119-131):
count all documents, count the matching ones, remove the matching ones,
count what is left. -/
def sweepCollection (cutoff : Int) (docs : List Doc) : SweepResult :=
  let how_many := docs.length
  let how_many_to_cut_off := (docs.filter (matchesCutoff cutoff)).length
  let after := docs.filter (fun d => ! matchesCutoff cutoff d)
  { total := how_many
    toRemove := how_many_to_cut_off
    left := after.length
    docsAfter := after }

/-- One host as supplied on the command line: its `host:port` string,
whether `MongoClient` construction succeeds (no `PyMongoError`), and
whether the host answers `isMaster` with `ismaster: true`. -/
structure Host where
  name : String
  connectOk : Bool
  isMaster : Bool
  deriving Repr

/-- How a run of `cut_old_data`'s host loop (or the whole sweep) ends:
normally, via `sys.exit(code)`, or with an unhandled Python exception. -/
inductive Outcome
  | ok
  | exited (code : Nat)
  | exception (msg : String)
  deriving DecidableEq, Repr

/-- The host loop of `cut_old_data` (lines 99-107): iterate hosts in order,
`self.connect(host)` each, stop at the first whose `is_master()` is true.
If `connect` failed, `self.__conn` is `None` and `is_master` raises
`TypeError` on `self.__conn['admin']`.  Returns the list of hosts connected
to (in order) and the outcome: primary found, loop exhausted, or crash. -/
def probeLoop : List Host → List String × Option Host × Outcome
  | [] => ([], none, Outcome.ok)
  | h :: rest =>
    if h.connectOk then
      if h.isMaster then ([h.name], some h, Outcome.ok)
      else
        let r := probeLoop rest
        (h.name :: r.1, r.2.1, r.2.2)
    else
      ([h.name], none, Outcome.exception "TypeError: NoneType is not subscriptable")

/-- The full result of `cut_old_data`: which hosts were connected to, how
the run ended, the per-collection reports, and the database contents after
the run. -/
structure CutResult where
  connects : List String
  outcome : Outcome
  results : List (String × SweepResult)
  finalDb : List (String × List Doc)
  deriving Repr

/-- `cut_old_data` (lines 96-131) over a database given as named
collections: find the primary (the `for`/`break`/`else` loop, exiting with
status 1 when no host reports primary), then sweep every collection with
the given cutoff.  No deletion happens unless a primary was found. -/
def cutOldData (hosts : List Host) (db : List (String × List Doc))
    (cutoff : Int) : CutResult :=
  let r := probeLoop hosts
  match r.2.1, r.2.2 with
  | some _, _ =>
    { connects := r.1
      outcome := Outcome.ok
      results := db.map (fun c => (c.1, sweepCollection cutoff c.2))
      finalDb := db.map (fun c => (c.1, (sweepCollection cutoff c.2).docsAfter)) }
  | none, Outcome.exception m =>
    { connects := r.1, outcome := Outcome.exception m, results := [], finalDb := db }
  | none, _ =>
    { connects := r.1, outcome := Outcome.exited 1, results := [], finalDb := db }

/-- Gregorian leap-year test, as used by Python's `calendar`/`datetime`. -/
def isLeap (y : Nat) : Bool :=
  (y % 4 == 0 && y % 100 != 0) || y % 400 == 0

/-- Number of days in month `m` (1-12) of year `y`. -/
def daysInMonth (y m : Nat) : Nat :=
  if m == 2 then (if isLeap y then 29 else 28)
  else if m == 4 || m == 6 || m == 9 || m == 11 then 30
  else 31

/-- A Python `datetime.date`: proleptic Gregorian year/month/day. -/
structure PyDate where
  year : Nat
  month : Nat
  day : Nat
  deriving DecidableEq, Repr

/-- The validity conditions Python's `date` constructor enforces. -/
def PyDate.valid (d : PyDate) : Prop :=
  1 ≤ d.year ∧ 1 ≤ d.month ∧ d.month ≤ 12 ∧ 1 ≤ d.day ∧
    d.day ≤ daysInMonth d.year d.month

instance (d : PyDate) : Decidable d.valid := by
  unfold PyDate.valid; infer_instance

/-- The zero-based month index `12*year + (month-1)` used by the
`monthdelta` package to do month arithmetic. -/
def monthIdx (d : PyDate) : Int :=
  12 * (d.year : Int) + (d.month : Int) - 1

/-- `date - monthdelta(n)` from the `monthdelta` package: subtract `n` from
the zero-based month index, split it back into year and month with floor
division, and clamp the day to the length of the target month.  (Python's
floor division by the positive constant 12 agrees with Euclidean division,
which is what `/` and `%` denote on `Int`.) -/
def monthSub (d : PyDate) (n : Int) : PyDate :=
  let total : Int := monthIdx d - n
  let y : Nat := (total / 12).toNat
  let m : Nat := (total % 12 + 1).toNat
  { year := y, month := m, day := min d.day (daysInMonth y m) }

/-- Days before month `m` in year `y` (sum of the lengths of months
`1..m-1`), as in Python's date ordinal computation. -/
def daysBeforeMonth (y m : Nat) : Nat :=
  (List.range (m - 1)).foldl (fun acc k => acc + daysInMonth y (k + 1)) 0

/-- Proleptic Gregorian ordinal of a date (0001-01-01 is day 1), as in
Python's `date.toordinal`. -/
def toOrdinal (d : PyDate) : Nat :=
  365 * (d.year - 1) + (d.year - 1) / 4 - (d.year - 1) / 100
    + (d.year - 1) / 400 + daysBeforeMonth d.year d.month + d.day

/-- `calendar.timegm(d.timetuple())` for a `date` `d`: the whole-second
UTC epoch timestamp of midnight on `d`.  0001-01-01 has ordinal 1 and
1970-01-01 has ordinal 719163, so the epoch offset is 719163. -/
def timegm (d : PyDate) : Int :=
  ((toOrdinal d : Int) - 719163) * 86400

/-- `cut_old_data` lines 112-114: `cut_off_date = today - monthdelta(retention)`
and `cut_off_timestamp = calendar.timegm(cut_off_date.timetuple()) * 1000`. -/
def cutOffTimestamp (today : PyDate) (retention : Int) : Int :=
  timegm (monthSub today retention) * 1000

/-- An entry in the trace of connection lifecycle events: a pymongo client
to a host being opened, or an open client being closed. -/
inductive ConnEvent
  | opened (host : String)
  | closed (host : String)
  deriving DecidableEq, Repr

/-- The connection-related state of a `MongoDB` object: `self.__conn`
(the host the current client is connected to, or `None`) together with the
trace of open/close events performed so far. -/
structure ConnSt where
  conn : Option String
  events : List ConnEvent
  deriving DecidableEq, Repr

/-- A fresh `MongoDB` object: `self.__conn = None`, nothing done yet. -/
def connInit : ConnSt := { conn := none, events := [] }

/-- `MongoDB.close` (lines 162-168): if `self.__conn is None` return,
otherwise close the client and set `self.__conn = None`. -/
def closeConn (st : ConnSt) : ConnSt :=
  match st.conn with
  | none => st
  | some h => { conn := none, events := st.events ++ [ConnEvent.closed h] }

/-- `MongoDB.connect` (lines 74-94): if a connection is open, close it
first; then construct a `MongoClient`.  `ok` tells whether the constructor
succeeds; on `PyMongoError` the error is logged and `self.__conn` stays
unset — no exception propagates out of `connect`. -/
def connectHost (st : ConnSt) (host : String) (ok : Bool) : ConnSt :=
  let st1 := if st.conn.isSome then closeConn st else st
  if ok then { conn := some host, events := st1.events ++ [ConnEvent.opened host] }
  else st1

/-- An operation on the `MongoDB` object's connection. -/
inductive MOp
  | doConnect (host : String) (ok : Bool)
  | doClose
  deriving DecidableEq, Repr

/-- Apply one connection operation. -/
def connStep (st : ConnSt) : MOp → ConnSt
  | MOp.doConnect h ok => connectHost st h ok
  | MOp.doClose => closeConn st

/-- Run a sequence of connection operations from a state. -/
def connRun (st : ConnSt) (ops : List MOp) : ConnSt :=
  ops.foldl connStep st

/-- The multiset (as a list) of connections still open after a trace of
events: each `opened h` adds `h`, each `closed h` removes one `h`. -/
def liveConns (evs : List ConnEvent) : List String :=
  evs.foldl
    (fun l e =>
      match e with
      | ConnEvent.opened h => l ++ [h]
      | ConnEvent.closed h => l.erase h)
    []

/-- One host as seen by `rebuild_indexes`: name, whether it reports
primary, and the collection names of the target database on it. -/
structure RHost where
  name : String
  isMaster : Bool
  collections : List String
  deriving Repr

/-- Accumulator of the host loop in `rebuild_indexes`. -/
structure RebuildAcc where
  connects : List String
  rebuilds : List (String × String)
  slaveFound : Bool
  deriving DecidableEq, Repr

/-- One iteration of the host loop in `rebuild_indexes` (lines 139-156):
connect to the host; `continue` if it reports primary; otherwise mark that
a secondary was found and `reindex()` every collection on it. -/
def rebuildStep (acc : RebuildAcc) (h : RHost) : RebuildAcc :=
  let acc1 := { acc with connects := acc.connects ++ [h.name] }
  if h.isMaster then acc1
  else
    { connects := acc1.connects
      rebuilds := acc1.rebuilds ++ h.collections.map (fun c => (h.name, c))
      slaveFound := true }

/-- The result of `rebuild_indexes`: hosts connected to, `(host, collection)`
pairs on which `reindex()` was issued, and how the run ended. -/
structure RebuildResult where
  connects : List String
  rebuilds : List (String × String)
  outcome : Outcome
  deriving DecidableEq, Repr

/-- `rebuild_indexes` (lines 133-160): loop over all hosts, skip primaries,
rebuild indexes on every collection of every secondary; exit with status 1
if no secondary was found. -/
def rebuildIndexes (hosts : List RHost) : RebuildResult :=
  let acc := hosts.foldl rebuildStep { connects := [], rebuilds := [], slaveFound := false }
  { connects := acc.connects
    rebuilds := acc.rebuilds
    outcome := if acc.slaveFound then Outcome.ok else Outcome.exited 1 }

/-- The `(host, collection)` pairs `rebuild_indexes` should touch: every
collection of every non-primary host, in host order. -/
def secondaryRebuilds (hosts : List RHost) : List (String × String) :=
  (hosts.filter (fun h => ! h.isMaster)).flatMap
    (fun h => h.collections.map (fun c => (h.name, c)))

/-- Python truthiness of `args.retention` as tested by
`if cmdline_args.retention:` — `None` and `0` are falsy, every other
integer is truthy. -/
def pyTruthyOptInt : Option Int → Bool
  | none => false
  | some n => n != 0

/-- What `__main__` (lines 170-176) does about the retention sweep. -/
inductive RetAction
  | swept (cutoff : Int)
  | skipped
  deriving DecidableEq, Repr

/-- The retention branch of `__main__`: `if cmdline_args.retention:` call
`cut_old_data(cmdline_args.retention)` (whose cutoff is
`cutOffTimestamp today retention`), else log and skip. -/
def mainRetention (retentionArg : Option Int) (today : PyDate) : RetAction :=
  if pyTruthyOptInt retentionArg then
    RetAction.swept (cutOffTimestamp today (retentionArg.getD 0))
  else RetAction.skipped

/-- Python's `'%s' % x` for an optional string: `None` renders as the
four-character string `"None"`. -/
def pyPercentS : Option String → String
  | none => "None"
  | some s => s

/-- The connection URI built by `MongoDB.connect` (lines 80-91):
without a username, `'mongodb://%s' % host`; with one,
`'mongodb://%s:%s@%s' % (user, password, host)`. -/
def connectUri (user password : Option String) (host : String) : String :=
  match user with
  | none => "mongodb://" ++ host
  | some u => "mongodb://" ++ u ++ ":" ++ pyPercentS password ++ "@" ++ host

/-- Whether `connect` takes the authenticated branch: exactly when
`self.mongodb_user is not None`. -/
def usesAuthBranch (user : Option String) : Bool :=
  user.isSome

/-- A list's length splits between the elements kept and dropped by a
Boolean filter. -/
theorem filter_length_split {α : Type} (p : α → Bool) (l : List α) :
    (l.filter p).length + (l.filter (fun a => ! p a)).length = l.length := by
  induction l with
  | nil => rfl
  | cons a t ih => cases h : p a <;> simp [List.filter_cons, h] <;> omega

/-- Filtering for `p` after filtering for its negation yields nothing. -/
theorem filter_not_then_filter {α : Type} (p : α → Bool) (l : List α) :
    (l.filter (fun a => ! p a)).filter p = [] := by
  induction l with
  | nil => rfl
  | cons a t ih => cases h : p a <;> simp [List.filter_cons, h, ih]

/-- Filtering for the negation of `p` is idempotent. -/
theorem filter_not_idem {α : Type} (p : α → Bool) (l : List α) :
    (l.filter (fun a => ! p a)).filter (fun a => ! p a)
      = l.filter (fun a => ! p a) := by
  induction l with
  | nil => rfl
  | cons a t ih => cases h : p a <;> simp [List.filter_cons, h, ih]

/-- A document fails the `$lt` filter exactly when its timestamp, if it has
one, is at or above the cutoff. -/
theorem matchesCutoff_eq_false_iff (cutoff : Int) (d : Doc) :
    matchesCutoff cutoff d = false ↔ ∀ t, d.timestamp = some t → cutoff ≤ t := by
  cases hd : d.timestamp <;> simp [matchesCutoff, hd]

/-- If every host connects fine and none is primary, the host loop of
`cut_old_data` connects to all of them in order and finds no primary. -/
theorem probeLoop_no_primary (hosts : List Host)
    (hc : ∀ h ∈ hosts, h.connectOk = true)
    (hm : ∀ h ∈ hosts, h.isMaster = false) :
    probeLoop hosts = (hosts.map (fun h => h.name), none, Outcome.ok) := by
  induction hosts with
  | nil => rfl
  | cons a t ih =>
    have ha := hc a (by simp)
    have hb := hm a (by simp)
    simp [probeLoop, ha, hb,
      ih (fun h hh => hc h (by simp [hh])) (fun h hh => hm h (by simp [hh]))]

/-- If the hosts before `b` connect fine and are secondaries while `b`
connects fine and is primary, the host loop connects to exactly the hosts
up to and including `b`, in order, and stops at `b`. -/
theorem probeLoop_finds_first (pre : List Host) (b : Host) (post : List Host)
    (hpre : ∀ h ∈ pre, h.connectOk = true ∧ h.isMaster = false)
    (hb : b.connectOk = true) (hm : b.isMaster = true) :
    probeLoop (pre ++ b :: post)
      = (pre.map (fun h => h.name) ++ [b.name], some b, Outcome.ok) := by
  induction pre with
  | nil => simp [probeLoop, hb, hm]
  | cons a t ih =>
    obtain ⟨hca, hma⟩ := hpre a (by simp)
    simp [probeLoop, hca, hma, ih (fun h hh => hpre h (by simp [hh]))]

/-- C1: after `cut_old_data` runs with cutoff `C` (a primary having been
found), every collection of the target database has been filtered: every
document with a timestamp strictly below `C` is absent, every document with
timestamp at or above `C` — and every document without a timestamp field —
remains, and the remaining count equals the prior total minus the matched
(removed) count. -/
theorem claim_C1_retention_sweep_correct (hosts : List Host)
    (db : List (String × List Doc)) (cutoff : Int) (p : Host)
    (hp : (probeLoop hosts).2.1 = some p) :
    (cutOldData hosts db cutoff).outcome = Outcome.ok ∧
    (cutOldData hosts db cutoff).finalDb
      = db.map (fun c => (c.1, c.2.filter (fun d => ! matchesCutoff cutoff d))) ∧
    ∀ nm docs, (nm, docs) ∈ db →
      ((∀ d ∈ (sweepCollection cutoff docs).docsAfter,
          ∀ t, d.timestamp = some t → cutoff ≤ t) ∧
       (∀ d ∈ docs, (∀ t, d.timestamp = some t → cutoff ≤ t) →
          d ∈ (sweepCollection cutoff docs).docsAfter) ∧
       (sweepCollection cutoff docs).left
         = (sweepCollection cutoff docs).total
             - (sweepCollection cutoff docs).toRemove) := by
  refine ⟨?_, ?_, ?_⟩
  · simp [cutOldData, hp]
  · simp [cutOldData, hp, sweepCollection]
  · intro nm docs _
    refine ⟨?_, ?_, ?_⟩
    · intro d hd t ht
      have hmem : d ∈ docs.filter (fun d => ! matchesCutoff cutoff d) := by
        simpa [sweepCollection] using hd
      have hf : matchesCutoff cutoff d = false := by
        have := (List.mem_filter.mp hmem).2
        simpa using this
      exact (matchesCutoff_eq_false_iff cutoff d).mp hf t ht
    · intro d hd hts
      have hf : matchesCutoff cutoff d = false :=
        (matchesCutoff_eq_false_iff cutoff d).mpr hts
      simp [sweepCollection, List.mem_filter, hd, hf]
    · have hsplit := filter_length_split (matchesCutoff cutoff) docs
      simp only [sweepCollection]
      omega

theorem claim_C1_witness :
    (probeLoop [⟨"B", true, true⟩]).2.1 = some ⟨"B", true, true⟩ ∧
    (cutOldData [⟨"B", true, true⟩]
        [("c", [⟨some 5, 0⟩, ⟨some 20, 1⟩, ⟨none, 2⟩])] 10).finalDb
      = [("c", [⟨some 20, 1⟩, ⟨none, 2⟩])] :=
  ⟨rfl,
    (claim_C1_retention_sweep_correct [⟨"B", true, true⟩]
      [("c", [⟨some 5, 0⟩, ⟨some 20, 1⟩, ⟨none, 2⟩])] 10
      ⟨"B", true, true⟩ rfl).2.1.trans (by decide)⟩

/-- C2: `cut_old_data` connects to hosts in the order supplied and stops at
the first primary: with hosts `pre ++ b :: post` where every host of `pre`
connects and is a secondary and `b` connects and is primary, it connects to
exactly the hosts of `pre` in order and then `b`, and never connects to any
host of `post`. -/
theorem claim_C2_probe_order (pre : List Host) (b : Host) (post : List Host)
    (db : List (String × List Doc)) (cutoff : Int)
    (hpre : ∀ h ∈ pre, h.connectOk = true ∧ h.isMaster = false)
    (hb : b.connectOk = true) (hm : b.isMaster = true) :
    (cutOldData (pre ++ b :: post) db cutoff).connects
        = pre.map (fun h => h.name) ++ [b.name] ∧
    (cutOldData (pre ++ b :: post) db cutoff).outcome = Outcome.ok := by
  have hprobe := probeLoop_finds_first pre b post hpre hb hm
  constructor <;> simp [cutOldData, hprobe]

theorem claim_C2_witness :
    ((∀ h ∈ [Host.mk "A" true false], h.connectOk = true ∧ h.isMaster = false) ∧
      (Host.mk "B" true true).connectOk = true ∧
      (Host.mk "B" true true).isMaster = true) ∧
    (cutOldData [Host.mk "A" true false, Host.mk "B" true true,
        Host.mk "C" true false] [] 0).connects = ["A", "B"] :=
  ⟨⟨by decide, rfl, rfl⟩,
    ((claim_C2_probe_order [Host.mk "A" true false] (Host.mk "B" true true)
      [Host.mk "C" true false] [] 0 (by decide) rfl rfl).1).trans (by decide)⟩

/-- C5: when every host connects fine but none reports primary,
`cut_old_data` exits the process with status 1, performs no per-collection
sweeps, and leaves the database unchanged. -/
theorem claim_C5_no_primary_exits (hosts : List Host)
    (db : List (String × List Doc)) (cutoff : Int)
    (hc : ∀ h ∈ hosts, h.connectOk = true)
    (hm : ∀ h ∈ hosts, h.isMaster = false) :
    (cutOldData hosts db cutoff).outcome = Outcome.exited 1 ∧
    (cutOldData hosts db cutoff).results = [] ∧
    (cutOldData hosts db cutoff).finalDb = db := by
  have hprobe := probeLoop_no_primary hosts hc hm
  refine ⟨?_, ?_, ?_⟩ <;> simp [cutOldData, hprobe]

theorem claim_C5_witness :
    ((∀ h ∈ [Host.mk "A" true false, Host.mk "B" true false],
        h.connectOk = true) ∧
      (∀ h ∈ [Host.mk "A" true false, Host.mk "B" true false],
        h.isMaster = false)) ∧
    (cutOldData [Host.mk "A" true false, Host.mk "B" true false]
        [("c", [⟨some 5, 0⟩])] 10).outcome = Outcome.exited 1 :=
  ⟨⟨by decide, by decide⟩,
    (claim_C5_no_primary_exits [Host.mk "A" true false, Host.mk "B" true false]
      [("c", [⟨some 5, 0⟩])] 10 (by decide) (by decide)).1⟩

/-- C6: running the retention sweep twice with the same cutoff (same
retention and clock, primary found) is idempotent: the second run leaves
every collection exactly as the first run left it, and matches (and so
removes) zero documents in every collection. -/
theorem claim_C6_sweep_idempotent (hosts : List Host)
    (db : List (String × List Doc)) (cutoff : Int) (p : Host)
    (hp : (probeLoop hosts).2.1 = some p) :
    (cutOldData hosts (cutOldData hosts db cutoff).finalDb cutoff).finalDb
      = (cutOldData hosts db cutoff).finalDb ∧
    ∀ e ∈ (cutOldData hosts (cutOldData hosts db cutoff).finalDb cutoff).results,
      e.2.toRemove = 0 := by
  have hfin : ∀ d : List (String × List Doc),
      (cutOldData hosts d cutoff).finalDb
        = d.map (fun c => (c.1, c.2.filter (fun x => ! matchesCutoff cutoff x))) := by
    intro d; simp [cutOldData, hp, sweepCollection]
  have hres : ∀ d : List (String × List Doc),
      (cutOldData hosts d cutoff).results
        = d.map (fun c => (c.1, sweepCollection cutoff c.2)) := by
    intro d; simp [cutOldData, hp]
  constructor
  · rw [hfin, hfin, List.map_map]
    refine List.map_congr_left (fun c _ => ?_)
    simp [Function.comp, filter_not_idem]
  · intro e he
    rw [hres, hfin, List.map_map] at he
    obtain ⟨c, _, rfl⟩ := List.mem_map.mp he
    simp [Function.comp, sweepCollection, filter_not_then_filter]

theorem claim_C6_witness :
    (probeLoop [⟨"B", true, true⟩]).2.1 = some ⟨"B", true, true⟩ ∧
    (cutOldData [⟨"B", true, true⟩]
        (cutOldData [⟨"B", true, true⟩]
          [("c", [⟨some 5, 0⟩, ⟨some 20, 1⟩])] 10).finalDb 10).finalDb
      = (cutOldData [⟨"B", true, true⟩]
          [("c", [⟨some 5, 0⟩, ⟨some 20, 1⟩])] 10).finalDb :=
  ⟨rfl,
    (claim_C6_sweep_idempotent [⟨"B", true, true⟩]
      [("c", [⟨some 5, 0⟩, ⟨some 20, 1⟩])] 10 ⟨"B", true, true⟩ rfl).1⟩

/-- Every month has at least 28 days. -/
theorem daysInMonth_pos (y m : Nat) : 28 ≤ daysInMonth y m := by
  unfold daysInMonth
  split_ifs <;> norm_num

/-- When the target month index stays in the valid date range,
`monthSub` lands exactly `n` months before `d`'s month. -/
theorem monthIdx_monthSub (d : PyDate) (n : Int) (h : 12 ≤ monthIdx d - n) :
    monthIdx (monthSub d n) = monthIdx d - n := by
  simp only [monthSub, monthIdx] at *
  omega

/-- `monthSub` of a valid date is again a valid date (the day is clamped
into the target month), as long as the result's year stays at least 1. -/
theorem monthSub_valid (d : PyDate) (n : Int) (hv : d.valid)
    (h : 12 ≤ monthIdx d - n) : (monthSub d n).valid := by
  obtain ⟨h1, h2, h3, h4, h5⟩ := hv
  have hdm := daysInMonth_pos (monthSub d n).year (monthSub d n).month
  simp only [monthSub, monthIdx, PyDate.valid] at *
  refine ⟨?_, ?_, ?_, ?_, ?_⟩ <;> omega

/-- C3: the cutoff of `cut_old_data` is today minus `n` months with the
day-of-month clamped into the target month (so e.g. March 31 minus one
month is a valid last-of-February date), converted to the whole-second UTC
epoch timestamp of that date and multiplied by 1000.  The range hypothesis
keeps the result within Python's date range (year at least 1). -/
theorem claim_C3_cutoff_months_back (today : PyDate) (n : Int)
    (hv : today.valid) (hn : 0 ≤ n) (hrange : 12 ≤ monthIdx today - n) :
    (monthSub today n).valid ∧
    monthIdx (monthSub today n) = monthIdx today - n ∧
    (monthSub today n).day
      = min today.day
          (daysInMonth (monthSub today n).year (monthSub today n).month) ∧
    (daysInMonth (monthSub today n).year (monthSub today n).month < today.day →
      (monthSub today n).day
        = daysInMonth (monthSub today n).year (monthSub today n).month) ∧
    (today.day ≤ daysInMonth (monthSub today n).year (monthSub today n).month →
      (monthSub today n).day = today.day) ∧
    cutOffTimestamp today n
      = ((toOrdinal (monthSub today n) : Int) - 719163) * 86400 * 1000 := by
  refine ⟨monthSub_valid today n hv hrange, monthIdx_monthSub today n hrange,
    rfl, ?_, ?_, rfl⟩
  · intro hlt
    have hd : (monthSub today n).day
        = min today.day
            (daysInMonth (monthSub today n).year (monthSub today n).month) := rfl
    rw [hd]
    exact min_eq_right (Nat.le_of_lt hlt)
  · intro hle
    have hd : (monthSub today n).day
        = min today.day
            (daysInMonth (monthSub today n).year (monthSub today n).month) := rfl
    rw [hd]
    exact min_eq_left hle

theorem claim_C3_witness :
    (PyDate.valid ⟨2018, 3, 31⟩ ∧ (0 : Int) ≤ 1 ∧
      12 ≤ monthIdx ⟨2018, 3, 31⟩ - 1) ∧
    (monthSub ⟨2018, 3, 31⟩ 1).valid ∧
    monthSub ⟨2018, 3, 31⟩ 1 = ⟨2018, 2, 28⟩ ∧
    cutOffTimestamp ⟨2018, 3, 31⟩ 1 = 1519776000000 :=
  ⟨⟨by decide, by decide, by decide⟩,
    (claim_C3_cutoff_months_back ⟨2018, 3, 31⟩ 1 (by decide) (by decide)
      (by decide)).1,
    by decide, by decide⟩

/-- C4 (code bug): when `MongoClient` raises on host A, `connect` logs and
swallows the error — it returns normally with the connection unset — but
`cut_old_data` then calls `is_master()` on the unset connection, which
raises an unhandled `TypeError` that aborts the sweep: the next host B (a
healthy primary) is never connected to, and nothing is swept.  The sweep
does not skip the failed host and continue. -/
theorem claim_C4_connect_failure_aborts_sweep
    (db : List (String × List Doc)) (cutoff : Int) :
    (connectHost connInit "A" false).conn = none ∧
    (cutOldData [⟨"A", false, false⟩, ⟨"B", true, true⟩] db cutoff).outcome
      = Outcome.exception "TypeError: NoneType is not subscriptable" ∧
    (cutOldData [⟨"A", false, false⟩, ⟨"B", true, true⟩] db cutoff).connects
      = ["A"] ∧
    (cutOldData [⟨"A", false, false⟩, ⟨"B", true, true⟩] db cutoff).results
      = [] ∧
    (cutOldData [⟨"A", false, false⟩, ⟨"B", true, true⟩] db cutoff).finalDb
      = db :=
  ⟨rfl, rfl, rfl, rfl, rfl⟩

/-- Unrolling the host loop of `rebuild_indexes`: it connects to every
host in order, issues rebuilds exactly on the collections of the
non-primary hosts, and records whether any non-primary host was seen. -/
theorem rebuild_foldl (hosts : List RHost) (acc : RebuildAcc) :
    hosts.foldl rebuildStep acc
      = { connects := acc.connects ++ hosts.map (fun h => h.name)
          rebuilds := acc.rebuilds ++ secondaryRebuilds hosts
          slaveFound := acc.slaveFound || hosts.any (fun h => ! h.isMaster) } := by
  induction hosts generalizing acc with
  | nil => simp [secondaryRebuilds]
  | cons a t ih =>
    cases h : a.isMaster <;>
      simp [rebuildStep, h, ih, secondaryRebuilds, List.filter_cons]

/-- C7: `rebuild_indexes` connects to every host, and issues index
rebuilds exactly on every collection of every host that reports
non-primary — in particular every issued rebuild belongs to some
non-primary host, so no rebuild is ever issued on a host reporting
primary. -/
theorem claim_C7_rebuild_secondaries_only (hosts : List RHost) :
    (rebuildIndexes hosts).connects = hosts.map (fun h => h.name) ∧
    (rebuildIndexes hosts).rebuilds = secondaryRebuilds hosts ∧
    ∀ pr, pr ∈ (rebuildIndexes hosts).rebuilds →
      ∃ h, h ∈ hosts ∧ h.isMaster = false ∧ pr.1 = h.name ∧
        pr.2 ∈ h.collections := by
  have hfold := rebuild_foldl hosts { connects := [], rebuilds := [], slaveFound := false }
  refine ⟨?_, ?_, ?_⟩
  · simp [rebuildIndexes, hfold]
  · simp [rebuildIndexes, hfold]
  · intro pr hpr
    have hpr2 : pr ∈ secondaryRebuilds hosts := by
      simpa [rebuildIndexes, hfold] using hpr
    obtain ⟨h, hh, hmem⟩ := List.mem_flatMap.mp hpr2
    obtain ⟨hh1, hh2⟩ := List.mem_filter.mp hh
    obtain ⟨c, hc, rfl⟩ := List.mem_map.mp hmem
    exact ⟨h, hh1, by simpa using hh2, rfl, hc⟩

theorem claim_C7_witness :
    (Prod.mk "B" "c1") ∈ (rebuildIndexes
      [⟨"A", true, ["x"]⟩, ⟨"B", false, ["c1", "c2"]⟩,
        ⟨"C", false, ["c3"]⟩]).rebuilds ∧
    ∃ h, h ∈ [RHost.mk "A" true ["x"], RHost.mk "B" false ["c1", "c2"],
        RHost.mk "C" false ["c3"]] ∧ h.isMaster = false ∧
      (Prod.mk "B" "c1").1 = h.name ∧ (Prod.mk "B" "c1").2 ∈ h.collections :=
  ⟨by decide,
    (claim_C7_rebuild_secondaries_only
      [⟨"A", true, ["x"]⟩, ⟨"B", false, ["c1", "c2"]⟩,
        ⟨"C", false, ["c3"]⟩]).2.2 ("B", "c1") (by decide)⟩

/-- Appending an `opened` event extends the live-connection list. -/
theorem liveConns_opened (evs : List ConnEvent) (h : String) :
    liveConns (evs ++ [ConnEvent.opened h]) = liveConns evs ++ [h] := by
  simp [liveConns, List.foldl_append]

/-- Appending a `closed` event removes one copy from the live list. -/
theorem liveConns_closed (evs : List ConnEvent) (h : String) :
    liveConns (evs ++ [ConnEvent.closed h]) = (liveConns evs).erase h := by
  simp [liveConns, List.foldl_append]

/-- The invariant tying the event trace to `self.__conn`: the connections
still open according to the trace are exactly the one (if any) that
`self.__conn` holds. -/
def connInv (st : ConnSt) : Prop :=
  liveConns st.events = st.conn.toList

/-- Every single `connect`/`close` operation preserves the trace
invariant. -/
theorem connStep_inv (st : ConnSt) (op : MOp) (h : connInv st) :
    connInv (connStep st op) := by
  cases op with
  | doClose =>
    cases hc : st.conn with
    | none => simpa [connStep, closeConn, hc] using h
    | some x =>
      simp only [connInv, connStep, closeConn, hc] at h ⊢
      simp [liveConns_closed, h]
  | doConnect hst ok =>
    cases hc : st.conn with
    | none =>
      cases ok with
      | true =>
        simp only [connInv, connStep, connectHost, closeConn, hc] at h ⊢
        simp [liveConns_opened, h]
      | false =>
        simp only [connInv, connStep, connectHost, closeConn, hc] at h ⊢
        simp [h, hc]
    | some x =>
      cases ok with
      | true =>
        simp [connInv, connStep, connectHost, closeConn, hc] at h ⊢
        have hsplit : st.events ++ [ConnEvent.closed x, ConnEvent.opened hst]
            = (st.events ++ [ConnEvent.closed x]) ++ [ConnEvent.opened hst] := by
          simp
        rw [hsplit, liveConns_opened, liveConns_closed, h]
        simp
      | false =>
        simp only [connInv, connStep, connectHost, closeConn, hc] at h ⊢
        simp [liveConns_closed, h]

/-- Running any sequence of operations from an invariant state lands in an
invariant state. -/
theorem connRun_inv (ops : List MOp) (st : ConnSt) (h : connInv st) :
    connInv (connRun st ops) := by
  induction ops generalizing st with
  | nil => exact h
  | cons op t ih =>
    simp only [connRun, List.foldl_cons]
    exact ih (connStep st op) (connStep_inv st op h)

/-- C8: the `MongoDB` object keeps at most one connection open.
`connect(X); connect(Y)` closes X before opening Y and leaves exactly the
connection to Y open; `close` on a never-opened or already-closed
connection is a no-op and is idempotent; and after any sequence of
operations from a fresh object the event trace shows at most one live
connection, namely the one `self.__conn` holds. -/
theorem claim_C8_single_open_connection (X Y : String) :
    connRun connInit [MOp.doConnect X true, MOp.doConnect Y true]
      = { conn := some Y,
          events := [ConnEvent.opened X, ConnEvent.closed X,
            ConnEvent.opened Y] } ∧
    (∀ st : ConnSt, st.conn = none → closeConn st = st) ∧
    (∀ st : ConnSt, closeConn (closeConn st) = closeConn st) ∧
    (∀ ops : List MOp,
      liveConns (connRun connInit ops).events
        = (connRun connInit ops).conn.toList ∧
      (liveConns (connRun connInit ops).events).length ≤ 1) := by
  refine ⟨rfl, ?_, ?_, ?_⟩
  · intro st h
    simp [closeConn, h]
  · intro st
    cases hc : st.conn <;> simp [closeConn, hc]
  · intro ops
    have hinv := connRun_inv ops connInit rfl
    refine ⟨hinv, ?_⟩
    rw [connInv] at hinv
    rw [hinv]
    cases (connRun connInit ops).conn <;> simp

theorem claim_C8_witness :
    closeConn { conn := none, events := [] } = { conn := none, events := [] } ∧
    liveConns (connRun connInit
        [MOp.doConnect "a" true, MOp.doClose, MOp.doConnect "b" false]).events
      = (connRun connInit
        [MOp.doConnect "a" true, MOp.doClose, MOp.doConnect "b" false]).conn.toList :=
  ⟨(claim_C8_single_open_connection "x" "y").2.1 { conn := none, events := [] } rfl,
    ((claim_C8_single_open_connection "x" "y").2.2.2
      [MOp.doConnect "a" true, MOp.doClose, MOp.doConnect "b" false]).1⟩

/-- C9: `__main__` gates the retention sweep on Python truthiness of the
parsed `--retention` integer: `--retention 0` behaves exactly like omitting
the flag (the sweep is skipped), while any nonzero integer — negative
included — triggers the sweep with cutoff today minus N months; for
negative N the cutoff month strictly follows today's month, i.e. a future
date. -/
theorem claim_C9_truthiness_gating (today : PyDate) (hv : today.valid) :
    mainRetention none today = RetAction.skipped ∧
    mainRetention (some 0) today = RetAction.skipped ∧
    (∀ n : Int, n ≠ 0 →
      mainRetention (some n) today = RetAction.swept (cutOffTimestamp today n)) ∧
    (∀ n : Int, n < 0 → monthIdx today < monthIdx (monthSub today n)) := by
  refine ⟨rfl, rfl, ?_, ?_⟩
  · intro n hn
    simp [mainRetention, pyTruthyOptInt, hn]
  · intro n hn
    have h12 : 12 ≤ monthIdx today := by
      obtain ⟨h1, h2, -⟩ := hv
      simp only [monthIdx]
      omega
    have hm := monthIdx_monthSub today n (by omega)
    omega

theorem claim_C9_witness :
    PyDate.valid ⟨2018, 3, 23⟩ ∧
    mainRetention (some 0) ⟨2018, 3, 23⟩ = RetAction.skipped ∧
    mainRetention (some (-2)) ⟨2018, 3, 23⟩
      = RetAction.swept (cutOffTimestamp ⟨2018, 3, 23⟩ (-2)) ∧
    monthIdx ⟨2018, 3, 23⟩ < monthIdx (monthSub ⟨2018, 3, 23⟩ (-2)) :=
  ⟨by decide,
    (claim_C9_truthiness_gating ⟨2018, 3, 23⟩ (by decide)).2.1,
    (claim_C9_truthiness_gating ⟨2018, 3, 23⟩ (by decide)).2.2.1 (-2) (by decide),
    (claim_C9_truthiness_gating ⟨2018, 3, 23⟩ (by decide)).2.2.2 (-2) (by decide)⟩

/-- C10: with a username configured but no password, `connect` still takes
the authenticated branch and builds the URI by `%`-formatting, so Python
renders the `None` password as the literal string `None` inside the URI —
there is no fall-back to unauthenticated mode. -/
theorem claim_C10_none_password_in_uri (u host : String) :
    usesAuthBranch (some u) = true ∧
    connectUri (some u) none host
      = "mongodb://" ++ u ++ ":" ++ "None" ++ "@" ++ host :=
  ⟨rfl, rfl⟩
